import Mathlib

/-!
Verification of the API resilience and caching core of the PusangOrange
companion app.  The definitions below are shallow embeddings of the
TypeScript sources:

* `src/services/tarkovErrors.ts`   — error class hierarchy
* `src/services/tarkovTesting.ts`  — `CircuitBreaker`, `RetryStrategy`,
  `ResilienceManager` (the resilience module)
* `src/services/tarkovCache.ts`    — `TarkovCache` (TTL cache with
  request deduplication and LFU-with-age eviction)
* the `TarkovService` producer / durable-fallback pattern
  (`fetchTraders`, `safeStorageOperation`)

Timestamps and durations are modelled as `Nat` (milliseconds).  JS `Map`
objects are modelled as insertion-ordered association lists, matching the
iteration order semantics of `Map`.  Asynchronous code is modelled by
making the suspension structure explicit: the synchronous prefix of each
async function is one atomic step (JavaScript's event loop runs it without
interleaving), and settlement of a promise is a separate step.
-/

/-! ## Error model (`tarkovErrors.ts`)

One constructor per concrete error class.  `NetworkError` carries its
optional `statusCode`; the other payloads are irrelevant to control flow
and are omitted. -/

/-- Concrete error classes of `tarkovErrors.ts`.  `networkError` carries the
optional HTTP `statusCode` field. -/
inductive TarkovApiError where
  | networkError (statusCode : Option Nat)
  | graphqlApiError
  | parseError
  | storageError
  | dataNotFoundError
  | timeoutError
  | rateLimitError
deriving DecidableEq, Repr

/-- Shallow embedding of `RetryStrategy.shouldRetry` (tarkovTesting.ts lines
781-799).  The JS guard `networkError.statusCode && statusCode >= 400 &&
statusCode < 500` is truthy only for a present, non-zero status code in the
4xx range; inside that branch the code returns
`[408, 429, 502, 503, 504].includes(statusCode)`, otherwise it falls through
to `return true` for any network error.  Timeout errors return `true`;
every other error class returns `false`. -/
def RetryStrategy.shouldRetry (e : TarkovApiError) : Bool :=
  match e with
  | .networkError statusCode =>
    match statusCode with
    | some c =>
      if c ≠ 0 ∧ 400 ≤ c ∧ c < 500 then
        [408, 429, 502, 503, 504].contains c
      else
        true
    | none => true
  | .timeoutError => true
  | _ => false

/-- Classification asserted by claim C1, written from the spec's words: an
error carrying a status code is retryable exactly when the code is in the
allowlist `{408, 429, 502, 503, 504}`; uncoded network errors and timeouts
are retryable; query-result and parse errors are not. -/
def specShouldRetryC1 (e : TarkovApiError) : Bool :=
  match e with
  | .networkError (some c) => [408, 429, 502, 503, 504].contains c
  | .networkError none => true
  | .timeoutError => true
  | _ => false

/-- Classification of the amended claim C1: a network error with a status
code in the 4xx range is retried only for 408 and 429; a network error whose
status code lies outside 400-499 (in particular any 5xx code such as 500) is
always retried, as are uncoded network errors and timeouts; query-result and
parse errors (and all remaining error classes) are never retried. -/
def amendedShouldRetryC1 (e : TarkovApiError) : Bool :=
  match e with
  | .networkError (some c) =>
    if 400 ≤ c ∧ c < 500 then decide (c = 408 ∨ c = 429) else true
  | .networkError none => true
  | .timeoutError => true
  | _ => false

/-- C1 counterexample: a network error with status code 500 — a 5xx code
outside the `{408, 429, 502, 503, 504}` allowlist — IS retried by
`shouldRetry` (the allowlist test is nested inside the 4xx-only branch, so
every coded network error outside 400-499 falls through to `return true`),
while the claim states any 4xx/5xx status code outside the allowlist is not
retried. -/
theorem C1_counterexample :
    RetryStrategy.shouldRetry (.networkError (some 500)) = true ∧
    specShouldRetryC1 (.networkError (some 500)) = false := by
  constructor <;> rfl

/-- C1 (amended): `RetryStrategy.shouldRetry` classifies every error exactly
as follows — a 4xx-coded network error is retried iff its code is 408 or
429; every other coded network error (including all 5xx codes) is retried;
uncoded network errors and timeout errors are retried; GraphQL query-result
errors, parse errors, and all other error classes are never retried. -/
theorem C1_amended_retry_classification :
    ∀ e : TarkovApiError,
      RetryStrategy.shouldRetry e = amendedShouldRetryC1 e := by
  intro e
  cases e with
  | networkError statusCode =>
    cases statusCode with
    | none => rfl
    | some c =>
      simp only [RetryStrategy.shouldRetry, amendedShouldRetryC1]
      by_cases h4 : 400 ≤ c ∧ c < 500
      · have hc0 : c ≠ 0 := by omega
        rw [if_pos ⟨hc0, h4.1, h4.2⟩, if_pos h4]
        apply Bool.eq_iff_iff.mpr
        simp only [List.contains_iff_exists_mem_beq, List.mem_cons,
          List.not_mem_nil, or_false, beq_iff_eq, decide_eq_true_eq]
        constructor
        · rintro ⟨x, hx, rfl⟩
          omega
        · intro h
          exact ⟨c, by omega, rfl⟩
      · have : ¬ (c ≠ 0 ∧ 400 ≤ c ∧ c < 500) := by
          intro h; exact h4 ⟨h.2.1, h.2.2⟩
        rw [if_neg this, if_neg h4]
  | graphqlApiError => rfl
  | parseError => rfl
  | storageError => rfl
  | dataNotFoundError => rfl
  | timeoutError => rfl
  | rateLimitError => rfl

/-! ## Circuit breaker (`tarkovTesting.ts`, resilience module)

The breaker's mutable fields become a record; `Date.now()` readings become
explicit `Nat` parameters.  The JS filter `time >= now - windowSize` is
modelled with truncated `Nat` subtraction: when `now < windowSize` the JS
bound is negative and admits every timestamp, and truncation to `0` admits
every (natural) timestamp as well, so the two agree. -/

/-- Configuration record of `CircuitBreakerConfig`. -/
structure CircuitBreakerConfig where
  failureThreshold : Nat
  successThreshold : Nat
  timeout : Nat
  windowSize : Nat
deriving DecidableEq, Repr

/-- Circuit breaker states `CLOSED | OPEN | HALF_OPEN` (`opened` because
`open` is a Lean keyword). -/
inductive CircuitState where
  | closed
  | opened
  | halfOpen
deriving DecidableEq, Repr

/-- Mutable state of the `CircuitBreaker` class. -/
structure CircuitBreaker where
  state : CircuitState
  failureCount : Nat
  successCount : Nat
  lastFailureTime : Nat
  failures : List Nat
deriving DecidableEq, Repr

/-- Field initializers of the `CircuitBreaker` class. -/
def CircuitBreaker.initial : CircuitBreaker :=
  ⟨.closed, 0, 0, 0, []⟩

/-- Shallow embedding of the private `onSuccess` method: reset
`failureCount`; while Half-Open, bump `successCount` and close the circuit
once it reaches `successThreshold`. -/
def CircuitBreaker.onSuccess (cb : CircuitBreaker) (cfg : CircuitBreakerConfig) :
    CircuitBreaker :=
  let cb := { cb with failureCount := 0 }
  if cb.state = .halfOpen then
    let sc := cb.successCount + 1
    if cfg.successThreshold ≤ sc then
      { cb with state := .closed, successCount := 0 }
    else
      { cb with successCount := sc }
  else cb

/-- Shallow embedding of the private `onFailure` method: push the timestamp,
bump `failureCount`, record `lastFailureTime`, drop failures older than the
window, and open the circuit when the windowed count reaches
`failureThreshold`. -/
def CircuitBreaker.onFailure (cb : CircuitBreaker) (cfg : CircuitBreakerConfig)
    (now : Nat) : CircuitBreaker :=
  let failures := cb.failures ++ [now]
  let windowStart := now - cfg.windowSize
  let recentFailures := failures.filter (fun t => windowStart ≤ t)
  let cb := { cb with
    failures := recentFailures
    failureCount := cb.failureCount + 1
    lastFailureTime := now }
  if cfg.failureThreshold ≤ recentFailures.length then
    { cb with state := .opened, successCount := 0 }
  else cb

/-- Shallow embedding of `shouldAttemptReset`: the JS comparison
`Date.now() - this.lastFailureTime >= this.config.timeout` read over the
integers. -/
def CircuitBreaker.shouldAttemptReset (cb : CircuitBreaker)
    (cfg : CircuitBreakerConfig) (now : Nat) : Bool :=
  cb.lastFailureTime + cfg.timeout ≤ now

/-- Observable outcome of one `CircuitBreaker.execute` call:
`rejectedOpen` models the `throw new NetworkError('Circuit breaker is OPEN
- service unavailable')` path (the wrapped operation is never invoked);
`succeeded`/`failed` mean the wrapped operation ran and settled. -/
inductive CBOutcome where
  | rejectedOpen
  | succeeded
  | failed
deriving DecidableEq, Repr

/-- Shallow embedding of `CircuitBreaker.execute`.  `t1` is the clock
reading at the Open check, `ok` whether the wrapped operation succeeds and
`t2` the clock reading when it settles. -/
def CircuitBreaker.execute (cb : CircuitBreaker) (cfg : CircuitBreakerConfig)
    (t1 : Nat) (ok : Bool) (t2 : Nat) : CBOutcome × CircuitBreaker :=
  if cb.state = .opened ∧ ¬ cb.shouldAttemptReset cfg t1 then
    (.rejectedOpen, cb)
  else
    let cb1 := if cb.state = .opened then { cb with state := .halfOpen } else cb
    if ok then (.succeeded, cb1.onSuccess cfg)
    else (.failed, cb1.onFailure cfg t2)

/-- Helper: `onSuccess` never touches the failure-timestamp window. -/
theorem CircuitBreaker.onSuccess_failures (cb : CircuitBreaker)
    (cfg : CircuitBreakerConfig) : (cb.onSuccess cfg).failures = cb.failures := by
  unfold CircuitBreaker.onSuccess
  dsimp only
  split
  · split <;> rfl
  · rfl

/-- Helper: the window stored by `onFailure`. -/
theorem CircuitBreaker.onFailure_failures (cb : CircuitBreaker)
    (cfg : CircuitBreakerConfig) (now : Nat) :
    (cb.onFailure cfg now).failures =
      (cb.failures ++ [now]).filter (fun t => now - cfg.windowSize ≤ t) := by
  unfold CircuitBreaker.onFailure
  dsimp only
  split <;> rfl

/-- Helper: `onFailure` opens the circuit exactly when the windowed count
reaches the threshold (from a non-Open state the state is Open afterwards
iff that count is reached). -/
theorem CircuitBreaker.onFailure_state (cb : CircuitBreaker)
    (cfg : CircuitBreakerConfig) (now : Nat) (h : cb.state ≠ .opened) :
    (cb.onFailure cfg now).state = .opened ↔
      cfg.failureThreshold ≤
        ((cb.failures ++ [now]).filter (fun t => now - cfg.windowSize ≤ t)).length := by
  unfold CircuitBreaker.onFailure
  dsimp only
  split
  · rename_i h'
    simpa using h'
  · rename_i h'
    exact iff_of_false h h'

/-- Helper: starting Half-Open with `k` successes still needed, `k`
consecutive successes close the circuit. -/
theorem CircuitBreaker.onSuccess_iter_closes (cfg : CircuitBreakerConfig) :
    ∀ (k : Nat) (cb : CircuitBreaker), cb.state = .halfOpen →
      cb.successCount + k = cfg.successThreshold → 1 ≤ k →
      ((fun c => CircuitBreaker.onSuccess c cfg)^[k] cb).state = .closed := by
  intro k
  induction k with
  | zero => omega
  | succ k ih =>
    intro cb hstate hsum _
    rw [Function.iterate_succ_apply]
    by_cases hk : k = 0
    · subst hk
      have hth : cfg.successThreshold ≤ cb.successCount + 1 := by omega
      simp only [Function.iterate_one, Function.iterate_zero, id_eq]
      unfold CircuitBreaker.onSuccess
      dsimp only
      rw [if_pos (by simpa using hstate), if_pos hth]
    · have hlt : ¬ cfg.successThreshold ≤ cb.successCount + 1 := by omega
      have hstep : CircuitBreaker.onSuccess cb cfg =
          { cb with failureCount := 0, successCount := cb.successCount + 1 } := by
        unfold CircuitBreaker.onSuccess
        dsimp only
        rw [if_pos (by simpa using hstate), if_neg hlt]
      rw [hstep]
      exact ih _ (by simpa using hstate) (by simp; omega) (by omega)

/-- C2 counterexample: with `failureThreshold = 2`, `successThreshold = 1`,
`timeout = 10`, `windowSize = 5`, failures at times 0 and 1 open the
circuit; the next call at time 20 enters Half-Open (since `20 - 1 >= 10`)
and its operation fails at time 20 — yet the breaker stays `HALF_OPEN`
rather than returning to `OPEN` as the claim requires, because by then the
old failures have aged out of the 5 ms window, so the windowed count is 1 <
`failureThreshold`.  (`onFailure` has no special Half-Open handling: it
re-opens only when the windowed count reaches the threshold.) -/
theorem C2_counterexample :
    ((CircuitBreaker.initial.execute ⟨2, 1, 10, 5⟩ 0 false 0).2.execute
        ⟨2, 1, 10, 5⟩ 1 false 1).2.state = .opened ∧
    (((CircuitBreaker.initial.execute ⟨2, 1, 10, 5⟩ 0 false 0).2.execute
        ⟨2, 1, 10, 5⟩ 1 false 1).2.execute ⟨2, 1, 10, 5⟩ 20 false 20).1 = .failed ∧
    (((CircuitBreaker.initial.execute ⟨2, 1, 10, 5⟩ 0 false 0).2.execute
        ⟨2, 1, 10, 5⟩ 1 false 1).2.execute ⟨2, 1, 10, 5⟩ 20 false 20).2.state
      = .halfOpen := by
  decide

/-- C2 (amended): the §4.2 state machine holds with the last clause weakened
to what `onFailure` actually does.  (i) A recorded failure moves a non-Open
breaker to Open exactly when the count of failures inside `windowSize`
reaches `failureThreshold`; (ii) while Open, `execute` rejects without
invoking the wrapped operation when `now - lastFailureTime < timeout`, and
otherwise transitions to Half-Open and lets the request through; (iii)
`successThreshold` consecutive Half-Open successes (starting a fresh
probation, `successCount = 0`) return the state to Closed; (iv) a failure
while Half-Open returns the state to Open if and only if the windowed
failure count (including this failure) reaches `failureThreshold` —
otherwise the breaker stays Half-Open. -/
theorem C2_amended_state_machine :
    ∀ (cfg : CircuitBreakerConfig) (cb : CircuitBreaker) (now t1 t2 : Nat) (ok : Bool),
      (cb.state ≠ .opened →
        ((cb.onFailure cfg now).state = .opened ↔
          cfg.failureThreshold ≤
            ((cb.failures ++ [now]).filter (fun t => now - cfg.windowSize ≤ t)).length)) ∧
      (cb.state = .opened →
        (t1 < cb.lastFailureTime + cfg.timeout →
          cb.execute cfg t1 ok t2 = (.rejectedOpen, cb)) ∧
        (cb.lastFailureTime + cfg.timeout ≤ t1 →
          cb.execute cfg t1 ok t2 =
            (if ok then
              (.succeeded, CircuitBreaker.onSuccess { cb with state := .halfOpen } cfg)
            else
              (.failed, CircuitBreaker.onFailure { cb with state := .halfOpen } cfg t2)))) ∧
      (cb.state = .halfOpen → cb.successCount = 0 → 1 ≤ cfg.successThreshold →
        ((fun c => CircuitBreaker.onSuccess c cfg)^[cfg.successThreshold] cb).state
          = .closed) ∧
      (cb.state = .halfOpen →
        ((cb.onFailure cfg t2).state = .opened ↔
          cfg.failureThreshold ≤
            ((cb.failures ++ [t2]).filter (fun t => t2 - cfg.windowSize ≤ t)).length)) := by
  intro cfg cb now t1 t2 ok
  refine ⟨fun h => cb.onFailure_state cfg now h, fun hopen => ?_,
    fun hs hc hth => ?_, fun hs => ?_⟩
  · constructor
    · intro hlt
      unfold CircuitBreaker.execute
      rw [if_pos]
      exact ⟨hopen, by simp [CircuitBreaker.shouldAttemptReset]; omega⟩
    · intro hge
      unfold CircuitBreaker.execute
      rw [if_neg (by simp [CircuitBreaker.shouldAttemptReset, hopen]; omega)]
      rw [if_pos hopen]
  · exact CircuitBreaker.onSuccess_iter_closes cfg cfg.successThreshold cb hs
      (by omega) hth
  · exact cb.onFailure_state cfg t2 (by simp [hs])

/-- Witness for `C2_amended_state_machine`: each clause instantiated at a
concrete breaker and clock values, with config `failureThreshold = 2`,
`successThreshold = 1`, `timeout = 10`, `windowSize = 5`. -/
theorem C2_amended_state_machine_witness :
    ((CircuitBreaker.initial.onFailure ⟨2, 1, 10, 5⟩ 5).state = .opened ↔
      2 ≤ (([] ++ [5] : List Nat).filter (fun t => 5 - 5 ≤ t)).length) ∧
    ((⟨.opened, 2, 0, 1, [0, 1]⟩ : CircuitBreaker).execute ⟨2, 1, 10, 5⟩ 5 true 6
      = (.rejectedOpen, ⟨.opened, 2, 0, 1, [0, 1]⟩)) ∧
    (((fun c => CircuitBreaker.onSuccess c ⟨2, 1, 10, 5⟩)^[1]
        (⟨.halfOpen, 0, 0, 1, [0, 1]⟩ : CircuitBreaker)).state = .closed) ∧
    ((((⟨.halfOpen, 2, 0, 1, [0, 1]⟩ : CircuitBreaker).onFailure ⟨2, 1, 10, 5⟩ 20).state
        = .opened) ↔
      2 ≤ (([0, 1] ++ [20] : List Nat).filter (fun t => 20 - 5 ≤ t)).length) := by
  refine ⟨(C2_amended_state_machine ⟨2, 1, 10, 5⟩ CircuitBreaker.initial 5 0 0 true).1
      (by decide),
    ((C2_amended_state_machine ⟨2, 1, 10, 5⟩ ⟨.opened, 2, 0, 1, [0, 1]⟩ 0 5 6 true).2.1
      rfl).1 (by decide),
    (C2_amended_state_machine ⟨2, 1, 10, 5⟩ ⟨.halfOpen, 0, 0, 1, [0, 1]⟩ 0 0 0 true).2.2.1
      rfl rfl (by decide),
    (C2_amended_state_machine ⟨2, 1, 10, 5⟩ ⟨.halfOpen, 2, 0, 1, [0, 1]⟩ 0 0 20 true).2.2.2
      rfl⟩

/-- C3 counterexample: with `failureThreshold = 2` and `windowSize = 100`, a
failed request at time 0, then a successful request (while Closed), then a
second failed request at time 1 leaves the breaker OPEN.  The intervening
success reset `failureCount` to 0, but the Open decision counts the
`failures` timestamp window, which the success did not clear — so the two
failures separated by a success still accumulated to `failureThreshold`. -/
theorem C3_counterexample :
    (((CircuitBreaker.initial.execute ⟨2, 1, 10, 100⟩ 0 false 0).2.execute
        ⟨2, 1, 10, 100⟩ 0 true 0).2.failureCount = 0) ∧
    (((CircuitBreaker.initial.execute ⟨2, 1, 10, 100⟩ 0 false 0).2.execute
        ⟨2, 1, 10, 100⟩ 0 true 0).2.state = .closed) ∧
    ((((CircuitBreaker.initial.execute ⟨2, 1, 10, 100⟩ 0 false 0).2.execute
        ⟨2, 1, 10, 100⟩ 0 true 0).2.execute ⟨2, 1, 10, 100⟩ 1 false 1).2.state
      = .opened) := by
  decide

/-- C3 (amended): a success while Closed resets the reported `failureCount`
counter to zero and leaves the breaker Closed, but it does NOT clear the
rolling `failures` window, and the Open decision counts window timestamps —
a subsequent failure drives the state exactly as it would have without the
intervening success, so failures separated by a success still accumulate
toward `failureThreshold` while they remain inside `windowSize`. -/
theorem C3_amended_success_resets_counter :
    ∀ (cfg : CircuitBreakerConfig) (cb : CircuitBreaker), cb.state = .closed →
      (cb.onSuccess cfg).failureCount = 0 ∧
      (cb.onSuccess cfg).state = .closed ∧
      (cb.onSuccess cfg).failures = cb.failures ∧
      ∀ now, ((cb.onSuccess cfg).onFailure cfg now).state
        = (cb.onFailure cfg now).state := by
  intro cfg cb h
  have hform : cb.onSuccess cfg = { cb with failureCount := 0 } := by
    unfold CircuitBreaker.onSuccess
    dsimp only
    rw [if_neg (by simp [h])]
  refine ⟨by rw [hform], by rw [hform]; exact h, by rw [hform], ?_⟩
  intro now
  rw [hform]
  unfold CircuitBreaker.onFailure
  dsimp only
  by_cases hth : cfg.failureThreshold ≤
      ((cb.failures ++ [now]).filter (fun t => now - cfg.windowSize ≤ t)).length
  · rw [if_pos hth, if_pos hth]
  · rw [if_neg hth, if_neg hth]

/-- Witness for `C3_amended_success_resets_counter` at a concrete Closed
breaker carrying two window timestamps and a nonzero failure counter. -/
theorem C3_amended_success_resets_counter_witness :
    ((⟨.closed, 3, 0, 7, [5, 6]⟩ : CircuitBreaker).onSuccess
        ⟨2, 1, 10, 100⟩).failureCount = 0 ∧
    ((⟨.closed, 3, 0, 7, [5, 6]⟩ : CircuitBreaker).onSuccess
        ⟨2, 1, 10, 100⟩).state = .closed ∧
    ((⟨.closed, 3, 0, 7, [5, 6]⟩ : CircuitBreaker).onSuccess
        ⟨2, 1, 10, 100⟩).failures = [5, 6] ∧
    (((⟨.closed, 3, 0, 7, [5, 6]⟩ : CircuitBreaker).onSuccess
        ⟨2, 1, 10, 100⟩).onFailure ⟨2, 1, 10, 100⟩ 8).state
      = ((⟨.closed, 3, 0, 7, [5, 6]⟩ : CircuitBreaker).onFailure
        ⟨2, 1, 10, 100⟩ 8).state := by
  have h := C3_amended_success_resets_counter ⟨2, 1, 10, 100⟩
    ⟨.closed, 3, 0, 7, [5, 6]⟩ rfl
  exact ⟨h.1, h.2.1, h.2.2.1, h.2.2.2 8⟩

/-! ## Resilience manager metrics (`ResilienceManager.getMetrics`)

JS numbers for the success rate and the exponentially smoothed latency are
modelled as rationals; the counters are naturals. -/

/-- Counter block of `ResilienceManager.metrics` (the `lastUpdateTime`
bookkeeping field is omitted — nothing reads it). -/
structure ResilienceMetrics where
  totalRequests : Nat
  successfulRequests : Nat
  failedRequests : Nat
  averageResponseTime : ℚ
deriving DecidableEq, Repr

/-- Field initializers of `ResilienceManager.metrics` for a freshly
constructed manager. -/
def ResilienceMetrics.initial : ResilienceMetrics :=
  ⟨0, 0, 0, 0⟩

/-- Shallow embedding of the success-rate computation in `getMetrics`:
`totalRequests > 0 ? successfulRequests / totalRequests * 100 : 100`. -/
def ResilienceMetrics.successRate (m : ResilienceMetrics) : ℚ :=
  if 0 < m.totalRequests then
    ((m.successfulRequests : ℚ) / (m.totalRequests : ℚ)) * 100
  else 100

/-- Health status values reported by `getMetrics`. -/
inductive HealthStatus where
  | healthy
  | degraded
  | unhealthy
deriving DecidableEq, Repr

/-- Shallow embedding of the `healthStatus` decision chain in `getMetrics`:
Open breaker ⇒ unhealthy; success rate below 90 ⇒ degraded; smoothed
latency above 10000 ms ⇒ degraded; otherwise healthy. -/
def healthStatusOf (cbState : CircuitState) (m : ResilienceMetrics) :
    HealthStatus :=
  if cbState = .opened then .unhealthy
  else if m.successRate < 90 then .degraded
  else if 10000 < m.averageResponseTime then .degraded
  else .healthy

/-- C10: `getMetrics` guards the success-rate division — whenever
`totalRequests = 0` the reported success rate is the rational 100 (the
division branch is never taken), and a freshly constructed manager (zero
counters, zero smoothed latency, Closed breaker) reports `healthy`. -/
theorem C10_metrics_division_guard :
    (∀ m : ResilienceMetrics, m.totalRequests = 0 → m.successRate = 100) ∧
    healthStatusOf CircuitBreaker.initial.state ResilienceMetrics.initial
      = .healthy := by
  constructor
  · intro m h
    unfold ResilienceMetrics.successRate
    rw [if_neg (by omega)]
  · rfl

/-- Witness for `C10_metrics_division_guard` at the initial metrics
record. -/
theorem C10_metrics_division_guard_witness :
    ResilienceMetrics.initial.successRate = 100 :=
  C10_metrics_division_guard.1 ResilienceMetrics.initial rfl

/-! ## Retry strategy loop and `ResilienceManager.execute`

The wrapped operation `fn` is modelled as a function from the attempt index
to that attempt's settled outcome; backoff delays only affect timing, never
results, and are not modelled. -/

/-- Configuration record of `RetryConfig`.  The delay fields shape only the
sleep durations between attempts (`calculateDelay`), which have no effect on
any result. -/
structure RetryConfig where
  maxAttempts : Nat
  baseDelay : Nat
  maxDelay : Nat
  backoffMultiplier : Nat
  jitter : Bool
deriving DecidableEq, Repr

/-- Shallow embedding of the `while` loop of `RetryStrategy.execute`.
Returns how many times `fn` was invoked together with the settled result
(`none` models the `throw lastError!` with `lastError` still unset, reachable
only when `maxAttempts = 0`).  Each loop iteration invokes `fn` once; on an
error the attempt counter is bumped, a non-retryable error is rethrown at
once, and exhausting `maxAttempts` breaks out of the loop rethrowing the
last error. -/
def RetryStrategy.go {α : Type} (fn : Nat → Except TarkovApiError α) :
    (fuel : Nat) → (attempt : Nat) → (lastError : Option TarkovApiError) →
    Nat × Option (Except TarkovApiError α)
  | 0, _, lastError => (0, lastError.map .error)
  | fuel + 1, attempt, _ =>
    match fn attempt with
    | .ok a => (1, some (.ok a))
    | .error e =>
      if RetryStrategy.shouldRetry e = false then (1, some (.error e))
      else if fuel = 0 then (1, some (.error e))
      else
        let r := RetryStrategy.go fn fuel (attempt + 1) (some e)
        (r.1 + 1, r.2)

/-- Shallow embedding of `RetryStrategy.execute`: run the loop from attempt
0 with no last error recorded and the full attempt budget as fuel.  The
structural fuel equals `maxAttempts - attempt`, so the loop guard
`attempt < maxAttempts` becomes "fuel positive" and the break condition
`attempt + 1 >= maxAttempts` becomes "remaining fuel zero". -/
def RetryStrategy.run {α : Type} (cfg : RetryConfig)
    (fn : Nat → Except TarkovApiError α) : Nat × Option (Except TarkovApiError α) :=
  RetryStrategy.go fn cfg.maxAttempts 0 none

/-- Observable result of one `ResilienceManager.execute` call.
`circuitOpen` models the `NetworkError('Circuit breaker is OPEN - service
unavailable')` rejection thrown before the retry sequence starts. -/
inductive ResilienceResult (α : Type) where
  | ok (a : α)
  | circuitOpen
  | failed (e : Option TarkovApiError)
deriving DecidableEq, Repr

/-- Shallow embedding of `ResilienceManager.execute`: the circuit breaker
wraps the ENTIRE retry sequence —
`circuitBreaker.execute(() => retryStrategy.execute(fn))`.  Returns the
number of `fn` invocations, the outcome, and the breaker state afterwards.
`t1` is the clock at the breaker's Open check, `t2` the clock when the retry
burst settles. -/
def ResilienceManager.execute {α : Type} (cb : CircuitBreaker)
    (cfg : CircuitBreakerConfig) (retryCfg : RetryConfig)
    (fn : Nat → Except TarkovApiError α) (t1 t2 : Nat) :
    Nat × ResilienceResult α × CircuitBreaker :=
  if cb.state = .opened ∧ ¬ cb.shouldAttemptReset cfg t1 then
    (0, .circuitOpen, cb)
  else
    let cb1 := if cb.state = .opened then { cb with state := .halfOpen } else cb
    let r := RetryStrategy.run retryCfg fn
    match r.2 with
    | some (.ok a) => (r.1, .ok a, cb1.onSuccess cfg)
    | some (.error e) => (r.1, .failed (some e), cb1.onFailure cfg t2)
    | none => (r.1, .failed none, cb1.onFailure cfg t2)

/-- C5: `ResilienceManager.execute` runs the breaker around the whole retry
sequence.  (i) While the circuit is Open and the timeout has not elapsed,
`fn` is invoked zero times, the call rejects with the circuit-open error and
the breaker state is untouched.  (ii) Otherwise the whole burst runs inside
a single breaker call: exactly `(RetryStrategy.run retryCfg fn).1` attempts
are made, a successful burst leaves the failure window unchanged, and a
failed burst — no matter how many failed attempts it contained — appends
exactly the single settlement timestamp `t2` to the breaker's window. -/
theorem C5_breaker_wraps_retry {α : Type} :
    ∀ (cb : CircuitBreaker) (cfg : CircuitBreakerConfig) (retryCfg : RetryConfig)
      (fn : Nat → Except TarkovApiError α) (t1 t2 : Nat),
      (cb.state = .opened → t1 < cb.lastFailureTime + cfg.timeout →
        ResilienceManager.execute cb cfg retryCfg fn t1 t2 = (0, .circuitOpen, cb)) ∧
      (¬ (cb.state = .opened ∧ t1 < cb.lastFailureTime + cfg.timeout) →
        (ResilienceManager.execute cb cfg retryCfg fn t1 t2).1
            = (RetryStrategy.run retryCfg fn).1 ∧
        (∀ a, (ResilienceManager.execute cb cfg retryCfg fn t1 t2).2.1 = .ok a →
          (ResilienceManager.execute cb cfg retryCfg fn t1 t2).2.2.failures
            = cb.failures) ∧
        (∀ e, (ResilienceManager.execute cb cfg retryCfg fn t1 t2).2.1 = .failed e →
          (ResilienceManager.execute cb cfg retryCfg fn t1 t2).2.2.failures
            = (cb.failures ++ [t2]).filter (fun t => t2 - cfg.windowSize ≤ t))) := by
  intro cb cfg retryCfg fn t1 t2
  have hcb1 : (if cb.state = .opened then { cb with state := .halfOpen } else cb).failures
      = cb.failures := by
    split <;> rfl
  constructor
  · intro hopen hlt
    unfold ResilienceManager.execute
    rw [if_pos ⟨hopen, by simp [CircuitBreaker.shouldAttemptReset]; omega⟩]
  · intro hadm
    have hnot : ¬ (cb.state = .opened ∧ ¬ cb.shouldAttemptReset cfg t1 = true) := by
      rintro ⟨h1, h2⟩
      simp [CircuitBreaker.shouldAttemptReset] at h2
      exact hadm ⟨h1, by omega⟩
    unfold ResilienceManager.execute
    rw [if_neg hnot]
    dsimp only
    rcases hr2 : (RetryStrategy.run retryCfg fn).2 with _ | r
    · dsimp only
      refine ⟨rfl, ?_, ?_⟩
      · intro a ha
        simp at ha
      · intro e _
        rw [CircuitBreaker.onFailure_failures, hcb1]
    · rcases r with e | a
      · dsimp only
        refine ⟨rfl, ?_, ?_⟩
        · intro a ha
          simp at ha
        · intro e' _
          rw [CircuitBreaker.onFailure_failures, hcb1]
      · dsimp only
        refine ⟨rfl, ?_, ?_⟩
        · intro a' _
          rw [CircuitBreaker.onSuccess_failures, hcb1]
        · intro e he
          simp at he

/-- Witness for `C5_breaker_wraps_retry`: a breaker opened at time 1 with
`timeout = 10` rejects a call at time 5 with zero invocations, and from a
Closed breaker a burst of three failed attempts (`maxAttempts = 3`) records
exactly one windowed failure timestamp. -/
theorem C5_breaker_wraps_retry_witness :
    (ResilienceManager.execute (⟨.opened, 2, 0, 1, [0, 1]⟩ : CircuitBreaker)
        ⟨2, 1, 10, 5⟩ ⟨3, 1000, 30000, 2, true⟩
        (fun _ => (.error .timeoutError : Except TarkovApiError Nat)) 5 6
      = (0, .circuitOpen, ⟨.opened, 2, 0, 1, [0, 1]⟩)) ∧
    ((ResilienceManager.execute CircuitBreaker.initial ⟨2, 1, 10, 5⟩
        ⟨3, 1000, 30000, 2, true⟩
        (fun _ => (.error .timeoutError : Except TarkovApiError Nat)) 0 9).1
      = (RetryStrategy.run ⟨3, 1000, 30000, 2, true⟩
          (fun _ => (.error .timeoutError : Except TarkovApiError Nat))).1) ∧
    ((ResilienceManager.execute CircuitBreaker.initial ⟨2, 1, 10, 5⟩
        ⟨3, 1000, 30000, 2, true⟩
        (fun _ => (.error .timeoutError : Except TarkovApiError Nat)) 0 9).2.2.failures
      = (CircuitBreaker.initial.failures ++ [9]).filter (fun t => 9 - 5 ≤ t)) := by
  refine ⟨(C5_breaker_wraps_retry (⟨.opened, 2, 0, 1, [0, 1]⟩ : CircuitBreaker)
      ⟨2, 1, 10, 5⟩ ⟨3, 1000, 30000, 2, true⟩
      (fun _ => (.error .timeoutError : Except TarkovApiError Nat)) 5 6).1
      rfl (by decide), ?_, ?_⟩
  · exact ((C5_breaker_wraps_retry CircuitBreaker.initial ⟨2, 1, 10, 5⟩
      ⟨3, 1000, 30000, 2, true⟩
      (fun _ => (.error .timeoutError : Except TarkovApiError Nat)) 0 9).2
      (by decide)).1
  · exact ((C5_breaker_wraps_retry CircuitBreaker.initial ⟨2, 1, 10, 5⟩
      ⟨3, 1000, 30000, 2, true⟩
      (fun _ => (.error .timeoutError : Except TarkovApiError Nat)) 0 9).2
      (by decide)).2.2 (some .timeoutError) (by decide)

/-! ## TTL cache with deduplication (`tarkovCache.ts`)

JS `Map`s are insertion-ordered association lists: `set` of an existing key
updates it in place (keeping its position), otherwise appends; iteration
(`Array.from(map.entries())`) yields insertion order.  Promises are modelled
by numeric ids: the synchronous prefix of `get`/`fetchAndCache` — which the
event loop runs atomically — is one step (`getStep`), and the settlement of
the provider's promise is a separate step (`fetchAndCacheSettle`). -/

/-- Cache entry record `CacheEntry<T>`. -/
structure CacheEntry (α : Type) where
  data : α
  timestamp : Nat
  ttl : Nat
  hits : Nat
deriving DecidableEq, Repr

/-- Insertion-ordered model of a JS `Map`. -/
abbrev CacheMap (α : Type) := List (String × CacheEntry α)

/-- JS `Map.get`: the value stored under the key, if any (first match in
insertion order). -/
def mapGet {β : Type} : List (String × β) → String → Option β
  | [], _ => none
  | p :: m, k => if p.1 = k then some p.2 else mapGet m k

/-- JS `Map.set`: update in place when the key exists (keeping insertion
order), otherwise append. -/
def mapSet {β : Type} (m : List (String × β)) (k : String) (v : β) :
    List (String × β) :=
  if m.any (fun p => p.1 = k) then
    m.map (fun p => if p.1 = k then (k, v) else p)
  else m ++ [(k, v)]

/-- Effect of JS `Map.delete` on the map contents. -/
def mapDelete {β : Type} (m : List (String × β)) (k : String) :
    List (String × β) :=
  m.filter (fun p => p.1 ≠ k)

/-- Shallow embedding of the private `isExpired` method:
`now - entry.timestamp > entry.ttl`.  With truncated `Nat` subtraction a
reading earlier than the entry's own timestamp yields `0 > ttl = false`,
matching the JS negative-difference comparison. -/
def TarkovCache.isExpired {α : Type} (entry : CacheEntry α) (now : Nat) : Bool :=
  entry.ttl < now - entry.timestamp

/-- Shallow embedding of the private `getCachedData` method: look the key
up; an expired entry is deleted lazily and reported as a miss.  Returns the
entry (if valid) together with the possibly-updated map. -/
def TarkovCache.getCachedData {α : Type} (cache : CacheMap α) (k : String)
    (now : Nat) : Option (CacheEntry α) × CacheMap α :=
  match mapGet cache k with
  | none => (none, cache)
  | some entry =>
    if TarkovCache.isExpired entry now then (none, mapDelete cache k)
    else (some entry, cache)

/-- Boolean total preorder realised by `resize`'s JS comparator
(`a.hits - b.hits`, ties by `a.timestamp - b.timestamp`): `a` sorts no
later than `b` iff `a` has fewer hits, or equal hits and an older (or
equal) timestamp. -/
def evictionLE {α : Type} (a b : String × CacheEntry α) : Bool :=
  decide (a.2.hits < b.2.hits ∨ (a.2.hits = b.2.hits ∧ a.2.timestamp ≤ b.2.timestamp))

/-- Shallow embedding of the private `resize` method: when over capacity,
stably sort the entries by `(hits ascending, timestamp ascending)` — JS
`Array.prototype.sort` is stable, as is `List.mergeSort` — and delete the
keys of the first `size - maxEntries` sorted entries from the map. -/
def TarkovCache.resize {α : Type} (cache : CacheMap α) (maxEntries : Nat) :
    CacheMap α :=
  if cache.length ≤ maxEntries then cache
  else
    let entries := cache.mergeSort evictionLE
    let toRemove := cache.length - maxEntries
    (entries.take toRemove).foldl (fun c p => mapDelete c p.1) cache

/-- Shallow embedding of the private `setCacheEntry` method: store the entry
with a fresh `hits = 0` counter and the current time, then run `resize`
(the `updateStats` call touches only statistics). -/
def TarkovCache.setCacheEntry {α : Type} (cache : CacheMap α) (k : String)
    (data : α) (ttl now maxEntries : Nat) : CacheMap α :=
  TarkovCache.resize (mapSet cache k ⟨data, now, ttl, 0⟩) maxEntries

/-- Pending request record `PendingRequest<T>`; the shared promise is a
numeric id. -/
structure PendingRequest where
  promise : Nat
  timestamp : Nat
deriving DecidableEq, Repr

/-- Statistics counters of `TarkovCache` relevant to `get` (entry counts and
memory estimates are derived data). -/
structure CacheStats where
  hits : Nat
  misses : Nat
  deduplicatedRequests : Nat
deriving DecidableEq, Repr

/-- State of a `TarkovCache` instance: the entry map, the pending-request
map, a fresh-promise-id counter (each provider invocation creates one new
promise) and the statistics. -/
structure CacheState (α : Type) where
  cache : CacheMap α
  pending : List (String × PendingRequest)
  nextPromise : Nat
  stats : CacheStats
deriving DecidableEq, Repr

/-- Outcome of the synchronous prefix of one `get` call: either a value
resolved immediately from the cache, or the id of the promise the call
returns (its own fresh fetch or a deduplicated pending one), plus whether
this call invoked the provider. -/
structure GetOutcome (α : Type) where
  result : Option α
  promise : Option Nat
  invokedProducer : Bool
deriving DecidableEq, Repr

/-- Synchronous prefix of the private `fetchAndCache` method: invoke the
provider (allocating the fresh promise id) and, when deduplication is
enabled, register the pending request — all before the first `await`, hence
atomic under the event loop. -/
def TarkovCache.fetchAndCacheStart {α : Type} (st : CacheState α) (k : String)
    (now : Nat) (enableDedup : Bool) : Nat × CacheState α :=
  let pid := st.nextPromise
  let pending := if enableDedup then mapSet st.pending k ⟨pid, now⟩ else st.pending
  (pid, { st with pending := pending, nextPromise := pid + 1 })

/-- Settlement step of `fetchAndCache`: on success cache the data and clear
the pending marker (the `finally` block); on failure only clear the pending
marker (the `catch` block plus `finally`) — the error is never cached. -/
def TarkovCache.fetchAndCacheSettle {α : Type} (st : CacheState α) (k : String)
    (result : Except TarkovApiError α) (ttl now maxEntries : Nat) : CacheState α :=
  match result with
  | .ok data =>
    { st with
      cache := TarkovCache.setCacheEntry st.cache k data ttl now maxEntries
      pending := mapDelete st.pending k }
  | .error _ => { st with pending := mapDelete st.pending k }

/-- Synchronous prefix of the public `get` method: `forceRefresh` bypasses
everything and fetches; otherwise a valid cached entry is returned at once
(bumping its hit counters); otherwise, with deduplication enabled, a pending
request for the key is joined; otherwise a fresh fetch starts. -/
def TarkovCache.getStep {α : Type} (st : CacheState α) (k : String) (now : Nat)
    (forceRefresh enableDedup : Bool) : GetOutcome α × CacheState α :=
  if forceRefresh then
    let r := TarkovCache.fetchAndCacheStart st k now enableDedup
    (⟨none, some r.1, true⟩, r.2)
  else
    match TarkovCache.getCachedData st.cache k now with
    | (some entry, cache1) =>
      let cache2 := mapSet cache1 k { entry with hits := entry.hits + 1 }
      (⟨some entry.data, none, false⟩,
       { st with cache := cache2, stats := { st.stats with hits := st.stats.hits + 1 } })
    | (none, cache1) =>
      let st1 := { st with cache := cache1 }
      if enableDedup then
        match mapGet st1.pending k with
        | some pr =>
          (⟨none, some pr.promise, false⟩,
           { st1 with stats :=
              { st1.stats with
                deduplicatedRequests := st1.stats.deduplicatedRequests + 1 } })
        | none =>
          let st2 := { st1 with stats := { st1.stats with misses := st1.stats.misses + 1 } }
          let r := TarkovCache.fetchAndCacheStart st2 k now enableDedup
          (⟨none, some r.1, true⟩, r.2)
      else
        let st2 := { st1 with stats := { st1.stats with misses := st1.stats.misses + 1 } }
        let r := TarkovCache.fetchAndCacheStart st2 k now enableDedup
        (⟨none, some r.1, true⟩, r.2)

/-- A burst of `n` logically concurrent `get` calls for key `k`, all issued
before any promise settles (no settlement step interleaves), with
`forceRefresh = false` and deduplication enabled.  Returns each call's
outcome in order, plus the final state. -/
def TarkovCache.runGets {α : Type} (k : String) (now : Nat) :
    Nat → CacheState α → List (GetOutcome α) × CacheState α
  | 0, st => ([], st)
  | n + 1, st =>
    let p := TarkovCache.getStep st k now false true
    let q := TarkovCache.runGets k now n p.2
    (p.1 :: q.1, q.2)

/-- Helper: a deleted key is absent. -/
theorem mapGet_mapDelete_self {β : Type} (m : List (String × β)) (k : String) :
    mapGet (mapDelete m k) k = none := by
  induction m with
  | nil => rfl
  | cons p m ih =>
    unfold mapDelete at *
    rw [List.filter_cons]
    by_cases hp : p.1 = k
    · rw [if_neg (by simp [hp])]
      exact ih
    · rw [if_pos (by simp [hp])]
      unfold mapGet
      rw [if_neg hp]
      exact ih

/-- Helper: a freshly `set` key maps to the new value. -/
theorem mapGet_mapSet_self {β : Type} (m : List (String × β)) (k : String) (v : β) :
    mapGet (mapSet m k v) k = some v := by
  induction m with
  | nil =>
    unfold mapSet
    rw [if_neg (by simp), List.nil_append]
    unfold mapGet
    rw [if_pos rfl]
  | cons p m ih =>
    by_cases hp : p.1 = k
    · unfold mapSet
      rw [if_pos (by simp [List.any_cons, hp])]
      rw [List.map_cons, if_pos hp]
      unfold mapGet
      rw [if_pos rfl]
    · by_cases hany : m.any (fun q => q.1 = k)
      · have hm : mapSet m k v = m.map (fun q => if q.1 = k then (k, v) else q) := by
          unfold mapSet
          rw [if_pos hany]
        unfold mapSet
        rw [if_pos (by simp only [List.any_cons, Bool.or_eq_true]; right; exact hany)]
        rw [List.map_cons, if_neg hp]
        unfold mapGet
        rw [if_neg hp, ← hm]
        exact ih
      · have hm : mapSet m k v = m ++ [(k, v)] := by
          unfold mapSet
          rw [if_neg hany]
        unfold mapSet
        rw [if_neg (by
          simp only [List.any_cons, Bool.or_eq_true, decide_eq_true_eq]
          rintro (h | h)
          · exact hp h
          · exact hany h)]
        rw [List.cons_append]
        unfold mapGet
        rw [if_neg hp, ← hm]
        exact ih

/-- Helper: `getCachedData` on an absent key is a miss leaving the map
unchanged. -/
theorem TarkovCache.getCachedData_none {α : Type} (cache : CacheMap α)
    (k : String) (now : Nat) (hc : mapGet cache k = none) :
    TarkovCache.getCachedData cache k now = (none, cache) := by
  unfold TarkovCache.getCachedData
  rw [hc]

/-- Helper: the miss path of `getStep` — no valid entry, no pending request:
the provider is invoked, the fresh promise is returned and registered as
pending. -/
theorem TarkovCache.getStep_miss {α : Type} (st : CacheState α) (k : String)
    (now : Nat) (hc : mapGet st.cache k = none) (hp : mapGet st.pending k = none) :
    TarkovCache.getStep st k now false true =
      (⟨none, some st.nextPromise, true⟩,
       { st with
          pending := mapSet st.pending k ⟨st.nextPromise, now⟩
          nextPromise := st.nextPromise + 1
          stats := { st.stats with misses := st.stats.misses + 1 } }) := by
  unfold TarkovCache.getStep
  rw [if_neg (by simp)]
  rw [TarkovCache.getCachedData_none _ _ _ hc]
  dsimp only
  rw [if_pos rfl, hp]
  dsimp only
  unfold TarkovCache.fetchAndCacheStart
  dsimp only
  rw [if_pos rfl]

/-- Helper: the deduplication path of `getStep` — no valid entry but a
pending request exists: the pending promise is joined, the provider is NOT
invoked and cache, pending map and promise counter are untouched. -/
theorem TarkovCache.getStep_dedup {α : Type} (st : CacheState α) (k : String)
    (now : Nat) (pr : PendingRequest) (hc : mapGet st.cache k = none)
    (hp : mapGet st.pending k = some pr) :
    TarkovCache.getStep st k now false true =
      (⟨none, some pr.promise, false⟩,
       { st with stats := { st.stats with
          deduplicatedRequests := st.stats.deduplicatedRequests + 1 } }) := by
  unfold TarkovCache.getStep
  rw [if_neg (by simp)]
  rw [TarkovCache.getCachedData_none _ _ _ hc]
  dsimp only
  rw [if_pos rfl, hp]

/-- Helper: while a pending request for `k` exists and the key is not
cached, every further `get` call joins that pending promise without
invoking the provider. -/
theorem TarkovCache.runGets_dedup {α : Type} (k : String) (now : Nat) :
    ∀ (n : Nat) (st : CacheState α) (pr : PendingRequest),
      mapGet st.cache k = none → mapGet st.pending k = some pr →
      ∀ o ∈ (TarkovCache.runGets k now n st).1,
        o.invokedProducer = false ∧ o.promise = some pr.promise := by
  intro n
  induction n with
  | zero =>
    intro st pr _ _ o ho
    simp [TarkovCache.runGets] at ho
  | succ n ih =>
    intro st pr hc hp o ho
    unfold TarkovCache.runGets at ho
    rw [TarkovCache.getStep_dedup st k now pr hc hp] at ho
    dsimp only at ho
    rw [List.mem_cons] at ho
    rcases ho with ho | ho
    · subst ho
      exact ⟨rfl, rfl⟩
    · exact ih ({ st with stats := { st.stats with
          deduplicatedRequests := st.stats.deduplicatedRequests + 1 } } : CacheState α)
        pr hc hp o ho

/-- C4: with deduplication enabled, for `n ≥ 2` logically concurrent `get`
calls for the same key — all issued before the producer's promise settles,
the key neither cached nor already pending — the producer is invoked by
exactly one of the calls (so at most one live fetch is ever in flight),
every call returns the same promise (the one allocated by the first call),
and hence under any settlement of that promise all calls resolve to the
identical value or error. -/
theorem C4_dedup_single_producer {α : Type} :
    ∀ (st : CacheState α) (k : String) (now n : Nat),
      2 ≤ n → mapGet st.cache k = none → mapGet st.pending k = none →
      ((TarkovCache.runGets k now n st).1.countP (fun o => o.invokedProducer) = 1) ∧
      (∀ o ∈ (TarkovCache.runGets k now n st).1, o.promise = some st.nextPromise) ∧
      (∀ settle : Nat → Except TarkovApiError α,
        ∀ o1 ∈ (TarkovCache.runGets k now n st).1,
          ∀ o2 ∈ (TarkovCache.runGets k now n st).1,
            o1.promise.map settle = o2.promise.map settle) := by
  intro st k now n hn hc hp
  obtain ⟨m, rfl⟩ : ∃ m, n = m + 1 := ⟨n - 1, by omega⟩
  have hc1 : mapGet ({ st with
      pending := mapSet st.pending k ⟨st.nextPromise, now⟩
      nextPromise := st.nextPromise + 1
      stats := { st.stats with misses := st.stats.misses + 1 } } : CacheState α).cache k
      = none := hc
  have hp1 : mapGet ({ st with
      pending := mapSet st.pending k ⟨st.nextPromise, now⟩
      nextPromise := st.nextPromise + 1
      stats := { st.stats with misses := st.stats.misses + 1 } } : CacheState α).pending k
      = some ⟨st.nextPromise, now⟩ := mapGet_mapSet_self _ _ _
  have hmain : ∀ o ∈ (TarkovCache.runGets k now (m + 1) st).1,
      o.promise = some st.nextPromise := by
    intro o ho
    unfold TarkovCache.runGets at ho
    rw [TarkovCache.getStep_miss st k now hc hp] at ho
    dsimp only at ho
    rw [List.mem_cons] at ho
    rcases ho with ho | ho
    · subst ho
      rfl
    · exact (TarkovCache.runGets_dedup k now m _ ⟨st.nextPromise, now⟩ hc1 hp1 o ho).2
  refine ⟨?_, fun o ho => hmain o ho, fun settle o1 h1 o2 h2 => ?_⟩
  · unfold TarkovCache.runGets
    rw [TarkovCache.getStep_miss st k now hc hp]
    dsimp only
    rw [List.countP_cons]
    have hzero : (TarkovCache.runGets k now m
        ({ st with
          pending := mapSet st.pending k ⟨st.nextPromise, now⟩
          nextPromise := st.nextPromise + 1
          stats := { st.stats with misses := st.stats.misses + 1 } } : CacheState α)).1.countP
          (fun o => o.invokedProducer) = 0 := by
      rw [List.countP_eq_zero]
      intro o ho
      have := TarkovCache.runGets_dedup k now m _ ⟨st.nextPromise, now⟩ hc1 hp1 o ho
      simp [this.1]
    rw [hzero]
    rfl
  · rw [hmain o1 h1, hmain o2 h2]

/-- Helper: `getCachedData` on an expired entry is a miss that lazily
deletes the entry. -/
theorem TarkovCache.getCachedData_expired {α : Type} (cache : CacheMap α)
    (k : String) (entry : CacheEntry α) (now : Nat)
    (hk : mapGet cache k = some entry)
    (hexp : TarkovCache.isExpired entry now = true) :
    TarkovCache.getCachedData cache k now = (none, mapDelete cache k) := by
  unfold TarkovCache.getCachedData
  rw [hk]
  dsimp only
  rw [if_pos hexp]

/-- C7: an entry is valid iff `now - storedAt <= ttl`; a lookup at
`storedAt + ttl - ε` (with `0 < ε ≤ ttl`) returns the cached entry leaving
the map unchanged, while a lookup at `storedAt + ttl + ε` (with `0 < ε`)
misses and lazily removes the entry — and a `get` call at that late time
with no pending request therefore invokes a fresh producer. -/
theorem C7_ttl_validity {α : Type} :
    (∀ (entry : CacheEntry α) (now : Nat),
      TarkovCache.isExpired entry now = false ↔ now - entry.timestamp ≤ entry.ttl) ∧
    (∀ (cache : CacheMap α) (k : String) (entry : CacheEntry α) (eps : Nat),
      mapGet cache k = some entry → 0 < eps → eps ≤ entry.ttl →
      TarkovCache.getCachedData cache k (entry.timestamp + entry.ttl - eps)
        = (some entry, cache)) ∧
    (∀ (cache : CacheMap α) (k : String) (entry : CacheEntry α) (eps : Nat),
      mapGet cache k = some entry → 0 < eps →
      TarkovCache.getCachedData cache k (entry.timestamp + entry.ttl + eps)
        = (none, mapDelete cache k)) ∧
    (∀ (st : CacheState α) (k : String) (entry : CacheEntry α) (eps : Nat),
      mapGet st.cache k = some entry → 0 < eps → mapGet st.pending k = none →
      (TarkovCache.getStep st k (entry.timestamp + entry.ttl + eps) false true).1.invokedProducer
        = true) := by
  have hexp : ∀ (entry : CacheEntry α) (eps : Nat), 0 < eps →
      TarkovCache.isExpired entry (entry.timestamp + entry.ttl + eps) = true := by
    intro entry eps heps
    unfold TarkovCache.isExpired
    simp only [decide_eq_true_eq]
    omega
  refine ⟨?_, ?_, ?_, ?_⟩
  · intro entry now
    unfold TarkovCache.isExpired
    simp only [decide_eq_false_iff_not, not_lt]
  · intro cache k entry eps hk heps hle
    have hvalid : TarkovCache.isExpired entry (entry.timestamp + entry.ttl - eps)
        = false := by
      unfold TarkovCache.isExpired
      simp only [decide_eq_false_iff_not, not_lt]
      omega
    unfold TarkovCache.getCachedData
    rw [hk]
    dsimp only
    rw [hvalid]
    simp
  · intro cache k entry eps hk heps
    exact TarkovCache.getCachedData_expired cache k entry _ hk (hexp entry eps heps)
  · intro st k entry eps hk heps hp
    unfold TarkovCache.getStep
    rw [if_neg (by simp)]
    rw [TarkovCache.getCachedData_expired st.cache k entry _ hk (hexp entry eps heps)]
    dsimp only
    rw [if_pos rfl, hp]

/-- Witness for `C7_ttl_validity` at a concrete entry stored at time 100
with `ttl = 50`, read at times 140 (hit) and 160 (expired miss, lazy
removal, fresh producer invocation). -/
theorem C7_ttl_validity_witness :
    (TarkovCache.getCachedData [("k", (⟨42, 100, 50, 0⟩ : CacheEntry Nat))] "k" 140
      = (some ⟨42, 100, 50, 0⟩, [("k", ⟨42, 100, 50, 0⟩)])) ∧
    (TarkovCache.getCachedData [("k", (⟨42, 100, 50, 0⟩ : CacheEntry Nat))] "k" 160
      = (none, mapDelete [("k", ⟨42, 100, 50, 0⟩)] "k")) ∧
    ((TarkovCache.getStep (⟨[("k", ⟨42, 100, 50, 0⟩)], [], 0, ⟨0, 0, 0⟩⟩ : CacheState Nat)
        "k" 160 false true).1.invokedProducer = true) := by
  refine ⟨C7_ttl_validity.2.1 _ "k" ⟨42, 100, 50, 0⟩ 10 (by decide) (by decide) (by decide),
    C7_ttl_validity.2.2.1 _ "k" ⟨42, 100, 50, 0⟩ 10 (by decide) (by decide),
    C7_ttl_validity.2.2.2 _ "k" ⟨42, 100, 50, 0⟩ 10 (by decide) (by decide) rfl⟩

/-- C9: when the producer passed to `get` fails, the settlement step caches
nothing (the entry map is untouched, so no entry is created or overwritten
for the key); whatever way the fetch settles, the pending marker for the
key is removed; and a subsequent `get` for a key that was never cached
invokes a fresh producer instead of observing a cached error or a leaked
pending marker. -/
theorem C9_failed_producer_not_cached {α : Type} :
    ∀ (st : CacheState α) (k : String) (e : TarkovApiError) (ttl now maxEntries : Nat),
      ((TarkovCache.fetchAndCacheSettle st k (.error e) ttl now maxEntries).cache
        = st.cache) ∧
      (∀ result : Except TarkovApiError α,
        mapGet (TarkovCache.fetchAndCacheSettle st k result ttl now maxEntries).pending k
          = none) ∧
      (mapGet st.cache k = none →
        (TarkovCache.getStep
            (TarkovCache.fetchAndCacheSettle st k (.error e) ttl now maxEntries)
            k now false true).1.invokedProducer = true) := by
  intro st k e ttl now maxEntries
  refine ⟨rfl, ?_, ?_⟩
  · intro result
    cases result with
    | ok data => exact mapGet_mapDelete_self _ _
    | error e2 => exact mapGet_mapDelete_self _ _
  · intro hc
    rw [TarkovCache.getStep_miss _ k now (by exact hc) (mapGet_mapDelete_self _ _)]

/-- Witness for `C9_failed_producer_not_cached` at a concrete state holding
one pending request for the key and an unrelated cached entry. -/
theorem C9_failed_producer_not_cached_witness :
    ((TarkovCache.fetchAndCacheSettle
        (⟨[("other", ⟨1, 0, 50, 0⟩)], [("k", ⟨0, 0⟩)], 1, ⟨0, 1, 0⟩⟩ : CacheState Nat)
        "k" (.error .timeoutError) 50 10 100).cache = [("other", ⟨1, 0, 50, 0⟩)]) ∧
    (mapGet (TarkovCache.fetchAndCacheSettle
        (⟨[("other", ⟨1, 0, 50, 0⟩)], [("k", ⟨0, 0⟩)], 1, ⟨0, 1, 0⟩⟩ : CacheState Nat)
        "k" (.ok 7) 50 10 100).pending "k" = none) ∧
    ((TarkovCache.getStep (TarkovCache.fetchAndCacheSettle
        (⟨[("other", ⟨1, 0, 50, 0⟩)], [("k", ⟨0, 0⟩)], 1, ⟨0, 1, 0⟩⟩ : CacheState Nat)
        "k" (.error .timeoutError) 50 10 100) "k" 10 false true).1.invokedProducer
      = true) := by
  refine ⟨(C9_failed_producer_not_cached _ "k" .timeoutError 50 10 100).1,
    (C9_failed_producer_not_cached
      (⟨[("other", ⟨1, 0, 50, 0⟩)], [("k", ⟨0, 0⟩)], 1, ⟨0, 1, 0⟩⟩ : CacheState Nat)
      "k" .timeoutError 50 10 100).2.1 (.ok 7),
    (C9_failed_producer_not_cached _ "k" .timeoutError 50 10 100).2.2 (by decide)⟩

/-- Witness for `C4_dedup_single_producer`: two concurrent `get` calls on an
empty fresh cache invoke the producer once, and the second (deduplicated)
call carries the first call's promise id 0. -/
theorem C4_dedup_single_producer_witness :
    ((TarkovCache.runGets "k" 0 2 (⟨[], [], 0, ⟨0, 0, 0⟩⟩ : CacheState Nat)).1.countP
        (fun o => o.invokedProducer) = 1) ∧
    ((⟨none, some 0, false⟩ : GetOutcome Nat).promise = some 0) := by
  refine ⟨(C4_dedup_single_producer (⟨[], [], 0, ⟨0, 0, 0⟩⟩ : CacheState Nat) "k" 0 2
      (by decide) rfl rfl).1,
    (C4_dedup_single_producer (⟨[], [], 0, ⟨0, 0, 0⟩⟩ : CacheState Nat) "k" 0 2
      (by decide) rfl rfl).2.1 ⟨none, some 0, false⟩ (by decide)⟩

/-- Helper: the eviction comparator is transitive. -/
theorem evictionLE_trans {α : Type} : ∀ (a b c : String × CacheEntry α),
    evictionLE a b → evictionLE b c → evictionLE a c := by
  intro a b c hab hbc
  simp only [evictionLE, decide_eq_true_eq] at *
  omega

/-- Helper: the eviction comparator is total. -/
theorem evictionLE_total {α : Type} : ∀ (a b : String × CacheEntry α),
    evictionLE a b || evictionLE b a := by
  intro a b
  simp only [evictionLE, Bool.or_eq_true, decide_eq_true_eq]
  omega

/-- Helper: deleting a batch of entries' keys from a map keeps exactly the
entries whose key is not among the batch. -/
theorem foldl_mapDelete_eq_filter {β : Type} :
    ∀ (R : List (String × β)) (m : List (String × β)),
      R.foldl (fun c p => mapDelete c p.1) m
        = m.filter (fun q => !(R.any (fun p => p.1 = q.1))) := by
  intro R
  induction R with
  | nil =>
    intro m
    simp
  | cons p R ih =>
    intro m
    rw [List.foldl_cons, ih]
    unfold mapDelete
    rw [List.filter_filter]
    apply List.filter_congr
    intro q _
    by_cases h1 : p.1 = q.1 <;> by_cases h2 : R.any (fun r => r.1 = q.1) <;>
      simp [h1, h2, List.any_cons, eq_comm]

/-- Helper: filtering an append by "key not among the prefix's keys" keeps
exactly the suffix, provided keys are duplicate-free. -/
theorem filter_key_notin_prefix {β : Type} (A B : List (String × β))
    (hnod : ((A ++ B).map Prod.fst).Nodup) :
    (A ++ B).filter (fun q => !(A.any (fun p => p.1 = q.1))) = B := by
  rw [List.map_append, List.nodup_append] at hnod
  rw [List.filter_append]
  have htake : A.filter (fun q => !(A.any (fun p => p.1 = q.1))) = [] := by
    rw [List.filter_eq_nil_iff]
    intro a ha
    have hany : A.any (fun p => decide (p.1 = a.1)) = true :=
      List.any_eq_true.mpr ⟨a, ha, by simp⟩
    simp [hany]
  have hdrop : B.filter (fun q => !(A.any (fun p => p.1 = q.1))) = B := by
    rw [List.filter_eq_self]
    intro b hb
    have hnone : A.any (fun p => decide (p.1 = b.1)) = false := by
      rw [List.any_eq_false]
      intro a ha
      simp only [decide_eq_true_eq]
      intro heq
      exact hnod.2.2 (List.mem_map_of_mem Prod.fst ha)
        (by rw [heq]; exact List.mem_map_of_mem Prod.fst hb)
    simp [hnone]
  rw [htake, hdrop, List.nil_append]

/-- Helper: over capacity with duplicate-free keys, `resize` keeps, up to
order, exactly the stably-sorted list minus its first `size - maxEntries`
entries, so exactly `maxEntries` entries remain. -/
theorem TarkovCache.resize_over {α : Type} (cache : CacheMap α) (maxEntries : Nat)
    (hnod : (cache.map Prod.fst).Nodup) (hover : maxEntries < cache.length) :
    (TarkovCache.resize cache maxEntries).Perm
      ((cache.mergeSort evictionLE).drop (cache.length - maxEntries)) ∧
    (TarkovCache.resize cache maxEntries).length = maxEntries := by
  have hperm : (cache.mergeSort evictionLE).Perm cache := List.mergeSort_perm cache _
  have hnods : ((cache.mergeSort evictionLE).map Prod.fst).Nodup :=
    ((hperm.map Prod.fst).symm).nodup hnod
  have hres : TarkovCache.resize cache maxEntries
      = cache.filter (fun q => !(((cache.mergeSort evictionLE).take
          (cache.length - maxEntries)).any (fun p => p.1 = q.1))) := by
    unfold TarkovCache.resize
    rw [if_neg (by omega)]
    exact foldl_mapDelete_eq_filter _ _
  set sorted := cache.mergeSort evictionLE with hs
  set t := cache.length - maxEntries with ht
  have hnodsplit : ((sorted.take t ++ sorted.drop t).map Prod.fst).Nodup := by
    rw [List.take_append_drop]
    exact hnods
  have hsortedfil : sorted.filter (fun q => !((sorted.take t).any (fun p => p.1 = q.1)))
      = sorted.drop t := by
    have h2 := filter_key_notin_prefix (sorted.take t) (sorted.drop t) hnodsplit
    have h3 : sorted.filter (fun q => !((sorted.take t).any (fun p => p.1 = q.1)))
        = (sorted.take t ++ sorted.drop t).filter
            (fun q => !((sorted.take t).any (fun p => p.1 = q.1))) := by
      rw [List.take_append_drop]
    rw [h3, h2]
  have hfilperm : List.Perm
      (cache.filter (fun q => !((sorted.take t).any (fun p => p.1 = q.1))))
      (sorted.drop t) := by
    rw [← hsortedfil]
    exact (hperm.filter _).symm
  rw [hres]
  refine ⟨hfilperm, ?_⟩
  rw [hfilperm.length_eq, List.length_drop, hperm.length_eq]
  omega

/-- Helper: when one entry of an over-by-one cache has strictly fewest hits
and keys are duplicate-free, `resize` deletes exactly that entry. -/
theorem TarkovCache.resize_removes_min {α : Type} (cache : CacheMap α)
    (maxEntries : Nat) (q : String × CacheEntry α)
    (hnod : (cache.map Prod.fst).Nodup)
    (hlen : cache.length = maxEntries + 1) (hq : q ∈ cache)
    (hmin : ∀ p ∈ cache, p ≠ q → q.2.hits < p.2.hits) :
    TarkovCache.resize cache maxEntries = mapDelete cache q.1 := by
  have hperm : (cache.mergeSort evictionLE).Perm cache := List.mergeSort_perm cache _
  have hsorted := @List.sorted_mergeSort _ evictionLE
    evictionLE_trans evictionLE_total cache
  have hlen2 : (cache.mergeSort evictionLE).length = maxEntries + 1 := by
    rw [hperm.length_eq, hlen]
  cases hsc : cache.mergeSort evictionLE with
  | nil =>
    rw [hsc] at hlen2
    simp at hlen2
  | cons h tl =>
    have hhead : h ∈ cache := hperm.subset (by rw [hsc]; exact List.mem_cons_self h tl)
    have hqsorted : q ∈ h :: tl := by
      rw [← hsc]
      exact hperm.symm.subset hq
    rw [hsc] at hsorted
    have hpair := (List.pairwise_cons.mp hsorted).1
    have hhq : h = q := by
      by_contra hne
      have hqtl : q ∈ tl := by
        rcases List.mem_cons.mp hqsorted with h1 | h1
        · exact absurd h1.symm hne
        · exact h1
      have hle : evictionLE h q := hpair q hqtl
      have hlt : q.2.hits < h.2.hits := hmin h hhead hne
      simp only [evictionLE, decide_eq_true_eq] at hle
      omega
    have hres1 : TarkovCache.resize cache maxEntries
        = ((cache.mergeSort evictionLE).take 1).foldl
            (fun c p => mapDelete c p.1) cache := by
      unfold TarkovCache.resize
      rw [if_neg (by omega)]
      have h1 : cache.length - maxEntries = 1 := by omega
      rw [h1]
    rw [hres1, hsc]
    simp only [List.take_succ_cons, List.take_zero, List.foldl_cons, List.foldl_nil]
    rw [hhq]

/-- C8: when the entry count exceeds `maxEntries` (keys duplicate-free),
eviction removes exactly the excess entries that come first in the stable
`(hits ascending, timestamp ascending)` order — the survivors are, up to
order, the sorted list minus its first `size - maxEntries` entries — leaving
exactly `maxEntries` entries; in particular, in a cache of `maxEntries + 1`
entries whose entry `q` has strictly the fewest hits (distinct hit counts),
`resize` deletes precisely `q`, and inserting a fresh `maxEntries + 1`-st
key via `setCacheEntry` into a full cache likewise deletes precisely the
entry with the lowest `(hits, timestamp)` tuple. -/
theorem C8_eviction {α : Type} :
    (∀ (cache : CacheMap α) (maxEntries : Nat),
      (cache.map Prod.fst).Nodup → maxEntries < cache.length →
      (TarkovCache.resize cache maxEntries).Perm
        ((cache.mergeSort evictionLE).drop (cache.length - maxEntries)) ∧
      (TarkovCache.resize cache maxEntries).length = maxEntries) ∧
    (∀ (cache : CacheMap α) (maxEntries : Nat) (q : String × CacheEntry α),
      (cache.map Prod.fst).Nodup → cache.length = maxEntries + 1 → q ∈ cache →
      (∀ p ∈ cache, p ≠ q → q.2.hits < p.2.hits) →
      TarkovCache.resize cache maxEntries = mapDelete cache q.1) ∧
    (∀ (cache : CacheMap α) (k : String) (data : α) (ttl now maxEntries : Nat)
        (q : String × CacheEntry α),
      (cache.map Prod.fst).Nodup → cache.any (fun p => p.1 = k) = false →
      cache.length = maxEntries →
      q ∈ cache ++ [(k, ⟨data, now, ttl, 0⟩)] →
      (∀ p ∈ cache ++ [(k, ⟨data, now, ttl, 0⟩)], p ≠ q → q.2.hits < p.2.hits) →
      TarkovCache.setCacheEntry cache k data ttl now maxEntries
        = mapDelete (cache ++ [(k, ⟨data, now, ttl, 0⟩)]) q.1) := by
  refine ⟨fun cache maxEntries hnod hover =>
    TarkovCache.resize_over cache maxEntries hnod hover,
    fun cache maxEntries q hnod hlen hq hmin =>
      TarkovCache.resize_removes_min cache maxEntries q hnod hlen hq hmin,
    ?_⟩
  intro cache k data ttl now maxEntries q hnod hfresh hlen hq hmin
  have hset : mapSet cache k (⟨data, now, ttl, 0⟩ : CacheEntry α)
      = cache ++ [(k, ⟨data, now, ttl, 0⟩)] := by
    unfold mapSet
    rw [if_neg (by rw [hfresh]; simp)]
  have hnod2 : ((cache ++ [(k, (⟨data, now, ttl, 0⟩ : CacheEntry α))]).map Prod.fst).Nodup := by
    rw [List.map_append, List.nodup_append]
    refine ⟨hnod, by simp, ?_⟩
    intro x hx hx2
    simp only [List.map_cons, List.map_nil, List.mem_singleton] at hx2
    rw [List.any_eq_false] at hfresh
    obtain ⟨p, hp, rfl⟩ := List.mem_map.mp hx
    exact hfresh p hp (by simpa using hx2)
  unfold TarkovCache.setCacheEntry
  rw [hset]
  exact TarkovCache.resize_removes_min _ maxEntries q hnod2 (by simp [hlen]) hq hmin

/-- Witness for `C8_eviction`: a two-entry cache over capacity 1 keeps
exactly one entry and deletes the strict-minimum-hits entry "b"; inserting a
fresh key "b" (new hit count 0) into a full one-entry cache evicts the new
minimum immediately. -/
theorem C8_eviction_witness :
    ((TarkovCache.resize [("a", (⟨0, 5, 100, 2⟩ : CacheEntry Nat)),
        ("b", ⟨0, 3, 100, 1⟩)] 1).Perm
      (([("a", (⟨0, 5, 100, 2⟩ : CacheEntry Nat)),
        ("b", ⟨0, 3, 100, 1⟩)].mergeSort evictionLE).drop 1) ∧
     (TarkovCache.resize [("a", (⟨0, 5, 100, 2⟩ : CacheEntry Nat)),
        ("b", ⟨0, 3, 100, 1⟩)] 1).length = 1) ∧
    (TarkovCache.resize [("a", (⟨0, 5, 100, 2⟩ : CacheEntry Nat)),
        ("b", ⟨0, 3, 100, 1⟩)] 1
      = mapDelete [("a", ⟨0, 5, 100, 2⟩), ("b", ⟨0, 3, 100, 1⟩)] "b") ∧
    (TarkovCache.setCacheEntry [("a", (⟨5, 0, 100, 3⟩ : CacheEntry Nat))] "b" 7 50 10 1
      = mapDelete ([("a", ⟨5, 0, 100, 3⟩)] ++ [("b", ⟨7, 10, 50, 0⟩)]) "b") := by
  exact ⟨C8_eviction.1 _ 1 (by decide) (by decide),
    C8_eviction.2.1 _ 1 ("b", ⟨0, 3, 100, 1⟩) (by decide) rfl (by decide) (by decide),
    C8_eviction.2.2 [("a", ⟨5, 0, 100, 3⟩)] "b" 7 50 10 1 ("b", ⟨7, 10, 50, 0⟩)
      (by decide) (by decide) rfl (by decide) (by decide)⟩

/-! ## Durable fallback at data-fetching call sites (`TarkovService`)

The producer body of `fetchTraders` is the representative call site: on
query success it stores the fresh result best-effort and returns it; on
failure it consults the persisted snapshot.  `α` stands for the `Trader`
record type; results of the asynchronous collaborators are passed in as
settled outcomes.  `PersistentStorage.getTraders()` resolves to the stored
array or `null`, and durable storage applies no TTL — whatever was stored
last is returned as is. -/

/-- Shallow embedding of the private `safeStorageOperation` method: the
operation's value, or `null` when it throws (the error is logged and
swallowed). -/
def TarkovService.safeStorageOperation {β : Type}
    (operation : Except TarkovApiError β) : Option β :=
  match operation with
  | .ok b => some b
  | .error _ => none

/-- Shallow embedding of the producer body of `TarkovService.fetchTraders`:
`queryResult` is the settled outcome of `executeQuery` and `storageRead`
that of `PersistentStorage.getTraders()` (`.ok none` models a missing
snapshot, `.error _` a failing storage read).  On query failure the
fallback is used only when `cachedTraders && cachedTraders.length > 0`,
i.e. the snapshot is non-null and nonempty; otherwise the original error is
rethrown. -/
def TarkovService.fetchTradersProducer {α : Type}
    (queryResult : Except TarkovApiError (List α))
    (storageRead : Except TarkovApiError (Option (List α))) :
    Except TarkovApiError (List α) :=
  match queryResult with
  | .ok traders => .ok traders
  | .error e =>
    match TarkovService.safeStorageOperation storageRead with
    | some (some cachedTraders) =>
      if 0 < cachedTraders.length then .ok cachedTraders else .error e
    | _ => .error e

/-- C6 counterexample: a durable snapshot WAS previously persisted for the
key — the empty trader list, exactly what `storeTraders([])` writes — yet
when the live fetch fails the operation rethrows the fetch error instead of
resolving with the snapshot's value `[]`: the code's
`cachedTraders.length > 0` guard treats an empty persisted array as absent,
while the claim says any present snapshot is returned. -/
theorem C6_counterexample :
    TarkovService.fetchTradersProducer
        (.error (.networkError none)) (.ok (some ([] : List Nat)))
      = .error (.networkError none) := by
  rfl

/-- C6 (amended): when the live resilient fetch fails and a NONEMPTY durable
snapshot was previously persisted for the same logical key, the operation
resolves with the snapshot's value and does not throw; when no snapshot is
present, the snapshot is the empty array, or the durable-storage read itself
fails, the original fetch error propagates; and a successful fetch returns
its own result. -/
theorem C6_amended_fallback {α : Type} :
    ∀ (e : TarkovApiError) (storageRead : Except TarkovApiError (Option (List α)))
      (l : List α),
      (storageRead = .ok (some l) → 0 < l.length →
        TarkovService.fetchTradersProducer (.error e) storageRead = .ok l) ∧
      ((storageRead = .ok none ∨ storageRead = .ok (some []) ∨
          (∃ e2, storageRead = .error e2)) →
        TarkovService.fetchTradersProducer (.error e) storageRead = .error e) ∧
      (∀ traders : List α,
        TarkovService.fetchTradersProducer (.ok traders) storageRead = .ok traders) := by
  intro e storageRead l
  refine ⟨?_, ?_, fun traders => rfl⟩
  · intro hread hne
    subst hread
    unfold TarkovService.fetchTradersProducer TarkovService.safeStorageOperation
    dsimp only
    rw [if_pos hne]
  · intro hcase
    rcases hcase with rfl | rfl | ⟨e2, rfl⟩
    · rfl
    · rfl
    · rfl

/-- Witness for `C6_amended_fallback`: with a persisted two-element
snapshot a failing fetch resolves to the snapshot; with a missing snapshot
the network error propagates; a successful fetch returns its result. -/
theorem C6_amended_fallback_witness :
    (TarkovService.fetchTradersProducer
        (.error (.networkError (some 500))) (.ok (some ([3, 4] : List Nat))) = .ok [3, 4]) ∧
    (TarkovService.fetchTradersProducer
        (.error (.networkError (some 500))) (.ok (none : Option (List Nat)))
      = .error (.networkError (some 500))) ∧
    (TarkovService.fetchTradersProducer (.ok ([9] : List Nat)) (.ok none) = .ok [9]) := by
  refine ⟨(C6_amended_fallback (.networkError (some 500)) (.ok (some [3, 4])) [3, 4]).1
      rfl (by decide),
    (C6_amended_fallback (.networkError (some 500)) (.ok none) []).2.1 (Or.inl rfl),
    (C6_amended_fallback (.networkError (some 500)) (.ok (none : Option (List Nat))) []).2.2 [9]⟩
